import Mathlib

/-!
Verification of the roka task-execution engine against its specification.

Shallow embedding of `src/backend/app/services/task_runner.py`,
`src/backend/app/services/vault.py` and
`src/backend/app/services/centrifugo_bridge.py`.

Conventions of the embedding:
* The PostgreSQL store is a `List Task` (resp. `List Credential`); the list
  order stands for the physical row order, about which SQL guarantees nothing.
* `now()` is an explicit `Int` clock argument (seconds); the SQL interval
  `'10 minutes'` becomes `10 * 60` seconds.
* Each SQL statement of the source is one atomic Lean function on the store;
  the database serializes concurrent statements, so an interleaving of two
  statements is one of the two sequential orders.
* asyncpg exceptions are modelled with `Except`.
-/

namespace Roka

/-- Task status enum of the `agent_tasks` table:
pending, running, completed, failed, cancelled. -/
inductive Status where
  | pending
  | running
  | completed
  | failed
  | cancelled
deriving DecidableEq, Repr

/-- JSON values, as held in the `input` jsonb column and in handler results
(Python dicts produced by `json.loads` / fed to `json.dumps`). -/
inductive Json where
  | null
  | bool (b : Bool)
  | num (n : Int)
  | str (s : String)
  | arr (xs : List Json)
  | obj (xs : List (String × Json))

/-- Python truthiness of a JSON value (`None`, `False`, `0`, `""`, `[]` and
the empty dict are falsy), as used by `if result and result.get("error")`. -/
def jsonTruthy : Json → Bool
  | .null => false
  | .bool b => b
  | .num n => n != 0
  | .str s => s != ""
  | .arr xs => !xs.isEmpty
  | .obj xs => !xs.isEmpty

/-- Minimal JSON string escaping (quote and backslash), enough for the
payloads the engine serializes; control-character escapes are not exercised
by any theorem below. -/
def jsonEscape (s : String) : String :=
  s.foldl (fun acc c =>
    if c = '\\' then acc ++ "\\\\"
    else if c = '"' then acc ++ "\\\""
    else acc ++ c.toString) ""

mutual

/-- `json.dumps` with its default separators. -/
def jsonDumps : Json → String
  | .null => "null"
  | .bool true => "true"
  | .bool false => "false"
  | .num n => toString n
  | .str s => "\"" ++ jsonEscape s ++ "\""
  | .arr xs => "[" ++ jsonDumpsList xs ++ "]"
  | .obj xs => "\x7b" ++ jsonDumpsObj xs ++ "\x7d"

def jsonDumpsList : List Json → String
  | [] => ""
  | [x] => jsonDumps x
  | x :: y :: xs => jsonDumps x ++ ", " ++ jsonDumpsList (y :: xs)

def jsonDumpsObj : List (String × Json) → String
  | [] => ""
  | [(k, v)] => "\"" ++ jsonEscape k ++ "\": " ++ jsonDumps v
  | (k, v) :: y :: xs =>
      "\"" ++ jsonEscape k ++ "\": " ++ jsonDumps v ++ ", " ++ jsonDumpsObj (y :: xs)

end

/-- One row of the `agent_tasks` table (the columns the engine touches). -/
structure Task where
  id : Nat
  workflow : String
  status : Status
  input : Json
  output : Option String
  error : Option String
  node_id : Option Nat
  owner_id : Nat
  created_at : Int
  started_at : Option Int
  heartbeat_at : Option Int
  completed_at : Option Int
  updated_at : Int

/-- The task table. List order models the (arbitrary) physical row order. -/
abbrev Store := List Task

/-- First row with the given id (`WHERE id = $1` on the primary key). -/
def findById (s : Store) (tid : Nat) : Option Task :=
  List.find? (fun t => t.id == tid) s

/-- `UPDATE ... WHERE id = tid`: apply `f` to every row whose id matches. -/
def updateById (s : Store) (tid : Nat) (f : Task → Task) : Store :=
  List.map (fun t => if t.id == tid then f t else t) s

/-- Number of rows with status = pending. -/
def countPending (s : Store) : Nat :=
  (List.filter (fun t => t.status == Status.pending) s).length

/-- The subquery `SELECT id FROM agent_tasks WHERE status = 'pending'
ORDER BY created_at ASC LIMIT 1 FOR UPDATE SKIP LOCKED`: some pending row
with minimal `created_at`.  The query has no secondary sort key, so among
rows tied on `created_at` SQL may return any of them; the embedding
resolves the tie to the earliest row in physical (list) order.
`SKIP LOCKED` makes the statement non-blocking: concurrent claims are
serialized by the row locks and the loser simply finds no eligible row, so
in this atomic-step model the function is total.  -/
def pendingMin : Store → Option Task
  | [] => none
  | t :: ts =>
      Option.elim (pendingMin ts)
        (if t.status = Status.pending then some t else none)
        (fun u =>
          if t.status = Status.pending then
            if t.created_at ≤ u.created_at then some t else some u
          else some u)

/-- The `SET` clause of the claim UPDATE: status = 'running',
started_at = now(), heartbeat_at = now(), updated_at = now(). -/
def markRunning (now : Int) (t : Task) : Task :=
  { t with
    status := Status.running
    started_at := some now
    heartbeat_at := some now
    updated_at := now }

/-- The columns of the claim statement's
`RETURNING id, workflow, input, node_id, owner_id`. -/
structure ClaimedRow where
  id : Nat
  workflow : String
  input : Json
  node_id : Option Nat
  owner_id : Nat

/-- Projection of a task row onto the RETURNING columns of the claim. -/
def returningCols (t : Task) : ClaimedRow :=
  { id := t.id
    workflow := t.workflow
    input := t.input
    node_id := t.node_id
    owner_id := t.owner_id }

/-- The claim statement of `_claim_and_run_one` (task_runner.py lines 56-70):
one atomic UPDATE that selects one pending task, oldest `created_at` first,
transitions it to running stamping started_at / heartbeat_at / updated_at,
and returns its row; `None` if no eligible row. -/
def claimNext (s : Store) (now : Int) : Option ClaimedRow × Store :=
  Option.elim (pendingMin s) (none, s)
    (fun t =>
      (some (returningCols (markRunning now t)), updateById s t.id (markRunning now)))

/-- Claim selection as the SPEC words it (section 4.1): ordered by
`created_at` ascending, ties broken by the stable secondary key `id`.
This definition follows the spec, not the source; it exists to be compared
with `pendingMin` above. -/
def pendingMinSpecOrder : Store → Option Task
  | [] => none
  | t :: ts =>
      Option.elim (pendingMinSpecOrder ts)
        (if t.status = Status.pending then some t else none)
        (fun u =>
          if t.status = Status.pending then
            if t.created_at < u.created_at ∨
                (t.created_at = u.created_at ∧ t.id < u.id) then some t else some u
          else some u)

/-- Successive claims by a single claimer (the drain loop of
`poll_agent_tasks`, line 192, restricted to the claim statement): claim up
to `n` tasks, collecting the returned rows in order, stopping at the first
empty claim. -/
def drainClaims : Nat → Store → Int → List ClaimedRow
  | 0, _, _ => []
  | n + 1, s, now =>
      Option.elim (claimNext s now).1 []
        (fun r => r :: drainClaims n (claimNext s now).2 now)

/-! ### Workflow dispatcher (`_claim_and_run_one`, task_runner.py lines 83-149) -/

/-- The keys of the `WORKFLOW_HANDLERS` registry (task_runner.py lines 22-26). -/
def handlerNames : List String := ["summarize", "triage", "agent"]

/-- The behaviour of one handler invocation, which is external to the engine
(the handler body is opaque application code): it either raises an exception
(carrying the exception type name, message and formatted traceback, as used
by `type(e).__name__`, `str(e)` and `traceback.format_exc()`), or returns a
Python value that is `None` or a dict. -/
inductive HandlerOutcome where
  | raised (ename emsg tb : String)
  | returned (result : Option (List (String × Json)))

/-- The failure UPDATE used at task_runner.py lines 85-89, 118-122 and
140-147: `SET status = 'failed', error = $2, completed_at = now(),
updated_at = now() WHERE id = $1`.  Matched on id only: no status guard. -/
def failRow (err : String) (now : Int) (t : Task) : Task :=
  { t with
    status := Status.failed
    error := some err
    completed_at := some now
    updated_at := now }

/-- The failure UPDATE applied to the whole table (matched on id). -/
def failTask (s : Store) (tid : Nat) (err : String) (now : Int) : Store :=
  updateById s tid (failRow err now)

/-- The completion UPDATE at task_runner.py lines 126-133:
`SET status = 'completed', output = $2::jsonb, completed_at = now(),
updated_at = now() WHERE id = $1`.  Matched on id only: no status guard.
`out` is the serialized JSON text passed for `$2`. -/
def completeRow (out : String) (now : Int) (t : Task) : Task :=
  { t with
    status := Status.completed
    output := some out
    completed_at := some now
    updated_at := now }

/-- The completion UPDATE applied to the whole table (matched on id). -/
def completeTask (s : Store) (tid : Nat) (out : String) (now : Int) : Store :=
  updateById s tid (completeRow out now)

/-- Python string slicing `s[:n]`: the first `n` characters. -/
def strTake (s : String) (n : Nat) : String :=
  String.mk (List.take n s.data)

/-- The text stored for a handler result's `error` value (the raw value is
passed as the `$2` text parameter; handlers in this repository put a string
there — a non-string value would be rejected by the database driver and is
not modelled further). -/
def errValueText : Json → String
  | .str s => s
  | v => jsonDumps v

/-- The Python condition `result and result.get("error")` (task_runner.py
line 117): `none` when the result is falsy (`None` or the empty dict), has
no `error` key, or the error value is falsy; otherwise the truthy error
value. -/
def resultErrVal : Option (List (String × Json)) → Option Json
  | none => none
  | some [] => none
  | some (p :: ms) =>
      match (p :: ms).lookup "error" with
      | none => none
      | some v => if jsonTruthy v then some v else none

/-- task_runner.py lines 92-147 after the handler finished: the
`result and result.get("error")` check, the completion write
`json.dumps(result or ...)`, and the `except` arm writing
`type(e).__name__ + ": " + str(e)` plus the traceback truncated by
`tb[:2000]`. -/
def processOutcome (s : Store) (tid : Nat) (now : Int) : HandlerOutcome → Store
  | .raised ename emsg tb =>
      failTask s tid (ename ++ ": " ++ emsg ++ "\n" ++ strTake tb 2000) now
  | .returned result =>
      Option.elim (resultErrVal result)
        (completeTask s tid (jsonDumps (Json.obj (result.getD []))) now)
        (fun v => failTask s tid (errValueText v) now)

/-- task_runner.py lines 83-149, after a row was claimed: resolve the
handler; unknown workflow fails the task immediately with
`"Unknown workflow: " + workflow` and invokes no handler; otherwise the
handler runs (with outcome `o`) and its result is processed.  Returns the
new store and whether a handler was invoked.  Both failure paths and the
raised path are inside the function's try/except, so the function always
returns (the caller's drain loop continues). -/
def dispatchClaimed (s : Store) (r : ClaimedRow) (now : Int) (o : HandlerOutcome) :
    Store × Bool :=
  if handlerNames.contains r.workflow then
    (processOutcome s r.id now o, true)
  else
    (failTask s r.id ("Unknown workflow: " ++ r.workflow) now, false)

/-- `_claim_and_run_one`: claim one pending task and run it.  Returns
(processed?, store, handler invoked?).  `False` when no task was claimed. -/
def claim_and_run_one (s : Store) (now : Int) (o : HandlerOutcome) :
    Bool × Store × Bool :=
  match claimNext s now with
  | (none, s1) => (false, s1, false)
  | (some r, s1) =>
      let (s2, invoked) := dispatchClaimed s1 r now o
      (true, s2, invoked)

/-! ### Stale-task reclaim (`_reclaim_stale_tasks`, task_runner.py lines 32-49) -/

/-- `STALE_TASK_TIMEOUT_MINUTES` (task_runner.py line 29). -/
def STALE_TASK_TIMEOUT_MINUTES : Int := 10

/-- The WHERE clause of the reclaim UPDATE: `status = 'running' AND
heartbeat_at < now() - interval '10 minutes'` (SQL `NULL < x` is not true). -/
def staleCond (now : Int) (t : Task) : Bool :=
  t.status == Status.running &&
    match t.heartbeat_at with
    | none => false
    | some h => h < now - STALE_TASK_TIMEOUT_MINUTES * 60

/-- The SET clause of the reclaim UPDATE: status = 'failed',
error = 'Worker timeout: task exceeded heartbeat deadline',
completed_at = now(), updated_at = now(). -/
def staleAssign (now : Int) (t : Task) : Task :=
  { t with
    status := Status.failed
    error := some "Worker timeout: task exceeded heartbeat deadline"
    completed_at := some now
    updated_at := now }

/-- A bulk UPDATE statement: a row filter, a row assignment, and whether its
RETURNING list contains an aggregate function (such as `count(*)`). -/
structure UpdateStmt where
  cond : Int → Task → Bool
  assign : Int → Task → Task
  returningAgg : Bool

/-- Execution of a bulk UPDATE by PostgreSQL.  An aggregate function in the
RETURNING list is rejected at parse analysis ("aggregate functions are not
allowed in RETURNING"), in which case the statement raises and updates
nothing; otherwise every matching row is updated atomically and the number
of matched rows is reported. -/
def execUpdate (u : UpdateStmt) (s : Store) (now : Int) : Except String (Nat × Store) :=
  if u.returningAgg then
    Except.error "aggregate functions are not allowed in RETURNING"
  else
    Except.ok
      ((List.filter (u.cond now) s).length,
        List.map (fun t => if u.cond now t then u.assign now t else t) s)

/-- The reclaim statement of task_runner.py lines 36-45.  Its RETURNING list
is `RETURNING count(*)` — an aggregate. -/
def reclaimStmt : UpdateStmt :=
  { cond := staleCond, assign := staleAssign, returningAgg := true }

/-- `_reclaim_stale_tasks`: runs the reclaim statement; any exception is
caught and only logged (`except Exception`), leaving the store as it was.
The Python function returns `None` either way. -/
def reclaim_stale_tasks (s : Store) (now : Int) : Store :=
  match execUpdate reclaimStmt s now with
  | Except.error _ => s
  | Except.ok p => p.2

/-! ### Credential vault (`vault.py`)

The `cryptography.fernet` library and the `json` codec are external to this
repository; they are embedded by their documented contracts.  Fernet is
authenticated symmetric encryption: a token decrypts to the original
plaintext under the key that produced it and fails authentication
(`InvalidToken`) under any other key; the token is modelled as the pair of
the producing key and the plaintext.  `json.dumps` and `json.loads` are
mutually inverse on JSON-representable values, so the serialized plaintext
byte string is modelled by the `Json` value itself. -/

/-- A Fernet token: ciphertext produced under `key` enclosing `payload`. -/
structure FernetToken where
  key : String
  payload : Json

/-- `Fernet(key).encrypt(payload)` (contract model, see section header). -/
def fernetEncrypt (key : String) (payload : Json) : FernetToken :=
  { key := key, payload := payload }

/-- `Fernet(key).decrypt(token)`: the payload if the token authenticates
under `key`, otherwise `InvalidToken` (modelled as `none`). -/
def fernetDecrypt (key : String) (tok : FernetToken) : Option Json :=
  if tok.key = key then some tok.payload else none

/-- `vault.encrypt` (vault.py lines 36-39): `json.dumps` the dict, then
Fernet-encrypt under the configured master key. -/
def encrypt (key : String) (data : List (String × Json)) : FernetToken :=
  fernetEncrypt key (Json.obj data)

/-- `vault.decrypt` (vault.py lines 42-49): Fernet-decrypt then `json.loads`;
`InvalidToken` is turned into
`ValueError("Decryption failed. Check ROKA_VAULT_KEY.")`. -/
def decrypt (key : String) (tok : FernetToken) : Except String Json :=
  Option.elim (fernetDecrypt key tok)
    (Except.error "Decryption failed. Check ROKA_VAULT_KEY.")
    (fun payload => Except.ok payload)

/-- One row of the `credentials` table. -/
structure Credential where
  id : Nat
  owner_id : Nat
  name : String
  service : String
  ctype : String
  config_encrypted : FernetToken
  is_active : Bool
  created_at : Int

/-- The credentials table. -/
abbrev CredStore := List Credential

/-- The row shape returned by `get_credential_decrypted`. -/
structure DecryptedCred where
  id : Nat
  owner_id : Nat
  name : String
  service : String
  ctype : String
  config : Json
  is_active : Bool

/-- `create_credential` (vault.py lines 52-67): INSERT a new row carrying the
caller's `owner_id` and the encrypted config.  The database assigns the
fresh primary key, passed here as `newId`. -/
def create_credential (key : String) (s : CredStore) (newId : Nat)
    (owner_id : Nat) (name service ctype : String)
    (config : List (String × Json)) (now : Int) : Credential × CredStore :=
  let row : Credential :=
    { id := newId
      owner_id := owner_id
      name := name
      service := service
      ctype := ctype
      config_encrypted := encrypt key config
      is_active := true
      created_at := now }
  (row, s ++ [row])

/-- `update_credential` (vault.py lines 70-109):
`UPDATE credentials SET ... WHERE id = $1 AND owner_id = $2`; the config is
re-encrypted only when supplied; with no field supplied the function
returns without touching the store. -/
def update_credential (key : String) (s : CredStore) (cid owner_id : Nat)
    (name? service? : Option String) (config? : Option (List (String × Json)))
    (isActive? : Option Bool) : CredStore :=
  if name?.isNone && service?.isNone && config?.isNone && isActive?.isNone then s
  else
    List.map (fun c =>
      if c.id == cid && c.owner_id == owner_id then
        { c with
          name := name?.getD c.name
          service := service?.getD c.service
          config_encrypted :=
            match config? with
            | none => c.config_encrypted
            | some cfg => encrypt key cfg
          is_active := isActive?.getD c.is_active }
      else c) s

/-- `get_credential_decrypted` (vault.py lines 112-130): SELECT by id alone
(`WHERE id = $1` — the statement has no owner_id condition and the function
takes no owner argument), then decrypt the config. -/
def get_credential_decrypted (key : String) (s : CredStore) (cid : Nat) :
    Except String DecryptedCred :=
  match List.find? (fun c => c.id == cid) s with
  | none => Except.error ("Credential " ++ toString cid ++ " not found")
  | some c =>
      match decrypt key c.config_encrypted with
      | Except.error e => Except.error e
      | Except.ok cfg =>
          Except.ok
            { id := c.id
              owner_id := c.owner_id
              name := c.name
              service := c.service
              ctype := c.ctype
              config := cfg
              is_active := c.is_active }

/-- `list_credentials` (vault.py lines 154-163):
`SELECT ... WHERE owner_id = $1 ORDER BY created_at DESC`, never returning
the (en/de)crypted config.  The ORDER BY only permutes rows; the embedding
keeps physical order since no claim concerns the listing order. -/
def list_credentials (s : CredStore) (owner_id : Nat) : CredStore :=
  List.filter (fun c => c.owner_id == owner_id) s

/-- `delete_credential` (vault.py lines 166-171):
`DELETE FROM credentials WHERE id = $1 AND owner_id = $2`; the function
reports whether exactly one row was deleted (`result == "DELETE 1"`). -/
def delete_credential (s : CredStore) (cid owner_id : Nat) : Bool × CredStore :=
  ((List.filter (fun c => c.id == cid && c.owner_id == owner_id) s).length == 1,
    List.filter (fun c => !(c.id == cid && c.owner_id == owner_id)) s)

/-! ### Change bridge (`centrifugo_bridge.py`)

All reachable backoff values of the source are whole seconds
(1.0, 2.0, 4.0, ..., 60.0), so the float backoff is embedded as a natural
number of seconds. -/

/-- `BRIDGE_RECONNECT_BASE` (centrifugo_bridge.py line 17). -/
def BRIDGE_RECONNECT_BASE : Nat := 1

/-- `BRIDGE_RECONNECT_MAX` (centrifugo_bridge.py line 18). -/
def BRIDGE_RECONNECT_MAX : Nat := 60

/-- centrifugo_bridge.py line 90: `backoff = min(backoff * 2, BRIDGE_RECONNECT_MAX)`. -/
def bridgeNextBackoff (b : Nat) : Nat :=
  min (b * 2) BRIDGE_RECONNECT_MAX

/-- One iteration of the bridge's reconnect loop (lines 62-90), parameterized
by whether the `add_listener` subscription succeeded before the connection
eventually died: on success the backoff is reset to the base (line 70)
before the iteration ends in an error; either way the loop then sleeps the
current backoff (line 89) and doubles it with the 60s cap (line 90).
Returns (delay slept, next backoff). -/
def bridgeIter (b : Nat) (subscribed : Bool) : Nat × Nat :=
  let b1 := if subscribed then BRIDGE_RECONNECT_BASE else b
  (b1, bridgeNextBackoff b1)

/-- The sleep delays of a run of the reconnect loop, given the per-iteration
subscription outcomes, starting from backoff `b`. -/
def bridgeDelays (b : Nat) : List Bool → List Nat
  | [] => []
  | o :: os =>
      let p := bridgeIter b o
      p.1 :: bridgeDelays p.2 os

/-- centrifugo_bridge.py lines 51-53: with no API key configured the bridge
logs and returns at startup, so the reconnect loop never runs — there are no
subscription attempts and no sleeps.  (`_publish`, line 25, likewise returns
before posting when the key is empty.)  The trace of a bridge run is the
list of sleep delays. -/
def centrifugoBridgeDelays (apiKey : String) (outcomes : List Bool) : List Nat :=
  if apiKey = "" then [] else bridgeDelays BRIDGE_RECONNECT_BASE outcomes

/-- Number of subscription attempts of a bridge run: zero when no API key is
configured, one per loop iteration otherwise. -/
def centrifugoBridgeSubscribeCount (apiKey : String) (outcomes : List Bool) : Nat :=
  if apiKey = "" then 0 else outcomes.length

/-! ### Concrete fixtures used by witnesses and counterexamples -/

/-- A fresh task row, as inserted by the front-end producer. -/
def mkTask (i : Nat) (wf : String) (st : Status) (created : Int) : Task :=
  { id := i
    workflow := wf
    status := st
    input := Json.obj []
    output := none
    error := none
    node_id := none
    owner_id := 7
    created_at := created
    started_at := none
    heartbeat_at := none
    completed_at := none
    updated_at := 0 }

/-- A store with exactly one pending task (and one completed one). -/
def exStoreOnePending : Store :=
  [mkTask 1 "summarize" Status.pending 10, mkTask 2 "agent" Status.completed 5]

/-- Three pending tasks with strictly increasing `created_at`. -/
def exStoreFifo : Store :=
  [mkTask 1 "summarize" Status.pending 10,
   mkTask 2 "triage" Status.pending 20,
   mkTask 3 "agent" Status.pending 30]

/-- Two pending tasks tied on `created_at`, the row with the larger id
physically first. -/
def exStoreTie : Store :=
  [mkTask 2 "agent" Status.pending 5, mkTask 1 "triage" Status.pending 5]

/-- A task already in the terminal status failed (as a stale reclaim or a
cancellation would leave it). -/
def exFailedTask : Task :=
  { mkTask 1 "summarize" Status.failed 0 with
    error := some "cancelled by user", completed_at := some 3 }

/-- A store holding only `exFailedTask`. -/
def exStoreFailed : Store := [exFailedTask]

/-- A pending task whose workflow name is not in the handler registry. -/
def exStoreUnknown : Store := [mkTask 1 "unknown_flow" Status.pending 0]

/-- The claimed row of the `exStoreUnknown` task. -/
def exClaimedUnknown : ClaimedRow :=
  { id := 1, workflow := "unknown_flow", input := Json.obj [], node_id := none, owner_id := 7 }

/-- A running task that last heartbeat at time 0. -/
def exRunTask : Task :=
  { mkTask 1 "summarize" Status.running 0 with
    started_at := some 0, heartbeat_at := some 0 }

/-- A store holding only `exRunTask`. -/
def exStoreRun : Store := [exRunTask]

/-- A claimed running task, as dispatch sees it. -/
def exStoreDispatch : Store :=
  [{ mkTask 1 "summarize" Status.running 4 with
     started_at := some 4, heartbeat_at := some 4 }]

/-- A credential store holding one credential of owner 2, encrypted under
the master key "KEYA". -/
def exCreds : CredStore :=
  [{ id := 10
     owner_id := 2
     name := "slack"
     service := "llm"
     ctype := "api_key"
     config_encrypted := encrypt "KEYA" [("token", Json.str "s3cret")]
     is_active := true
     created_at := 0 }]

/-! ### Store lemmas -/

theorem findById_updateById (s : Store) (tid : Nat) (f : Task → Task)
    (hf : ∀ t, (f t).id = t.id) :
    findById (updateById s tid f) tid = (findById s tid).map f := by
  induction s with
  | nil => rfl
  | cons t ts ih =>
    show findById ((if t.id == tid then f t else t) :: updateById ts tid f) tid = _
    by_cases h : (t.id == tid) = true
    · have hft : ((f t).id == tid) = true := by
        rw [show (f t).id = t.id from hf t]; exact h
      rw [if_pos h]
      show List.find? (fun u => u.id == tid) (f t :: updateById ts tid f) =
        Option.map f (List.find? (fun u => u.id == tid) (t :: ts))
      rw [List.find?_cons_of_pos (p := fun (u : Task) => u.id == tid) _ hft,
        List.find?_cons_of_pos (p := fun (u : Task) => u.id == tid) _ h]
      rfl
    · have h2 : ¬((t.id == tid) = true) := h
      rw [if_neg h2]
      show List.find? (fun u => u.id == tid) (t :: updateById ts tid f) =
        Option.map f (List.find? (fun u => u.id == tid) (t :: ts))
      rw [List.find?_cons_of_neg (p := fun (u : Task) => u.id == tid) _ h2,
        List.find?_cons_of_neg (p := fun (u : Task) => u.id == tid) _ h2]
      exact ih

theorem updateById_eq_self (s : Store) (tid : Nat) (f : Task → Task)
    (h : ∀ u ∈ s, u.id ≠ tid) : updateById s tid f = s := by
  unfold updateById
  conv_rhs => rw [← List.map_id s]
  refine List.map_congr_left (fun u hu => ?_)
  simp [h u hu]

theorem updateById_append (a b : Store) (tid : Nat) (f : Task → Task) :
    updateById (a ++ b) tid f = updateById a tid f ++ updateById b tid f := by
  simp [updateById]

theorem pendingMin_mem : ∀ {s : Store} {t : Task}, pendingMin s = some t →
    t ∈ s ∧ t.status = Status.pending := by
  intro s
  induction s with
  | nil => intro t h; cases h
  | cons u us ih =>
    intro t h
    unfold pendingMin at h
    cases hrec : pendingMin us with
    | none =>
      rw [hrec] at h
      simp only [Option.elim] at h
      by_cases hu : u.status = Status.pending
      · rw [if_pos hu] at h
        cases h
        exact ⟨List.mem_cons_self _ _, hu⟩
      · rw [if_neg hu] at h; cases h
    | some v =>
      rw [hrec] at h
      simp only [Option.elim] at h
      obtain ⟨hvmem, hvp⟩ := ih hrec
      by_cases hu : u.status = Status.pending
      · rw [if_pos hu] at h
        by_cases hle : u.created_at ≤ v.created_at
        · rw [if_pos hle] at h; cases h
          exact ⟨List.mem_cons_self _ _, hu⟩
        · rw [if_neg hle] at h; cases h
          exact ⟨List.mem_cons_of_mem _ hvmem, hvp⟩
      · rw [if_neg hu] at h; cases h
        exact ⟨List.mem_cons_of_mem _ hvmem, hvp⟩

theorem pendingMin_eq_none_iff (s : Store) :
    pendingMin s = none ↔ ∀ t ∈ s, t.status ≠ Status.pending := by
  induction s with
  | nil => simp [pendingMin]
  | cons u us ih =>
    unfold pendingMin
    cases hrec : pendingMin us with
    | none =>
      rw [hrec] at ih
      simp only [Option.elim]
      constructor
      · intro h t ht
        by_cases hu : u.status = Status.pending
        · rw [if_pos hu] at h; cases h
        · rcases List.mem_cons.mp ht with rfl | hmem
          · exact hu
          · exact (ih.mp rfl) t hmem
      · intro h
        rw [if_neg (h u (List.mem_cons_self _ _))]
    | some v =>
      obtain ⟨hvmem, hvp⟩ := pendingMin_mem hrec
      simp only [Option.elim]
      constructor
      · intro h
        by_cases hu : u.status = Status.pending
        · rw [if_pos hu] at h
          by_cases hle : u.created_at ≤ v.created_at <;> simp [hle] at h
        · rw [if_neg hu] at h; cases h
      · intro h
        exact absurd hvp (h v (List.mem_cons_of_mem _ hvmem))

theorem pendingMin_cons_not_pending (u : Task) (l : Store)
    (hu : u.status ≠ Status.pending) : pendingMin (u :: l) = pendingMin l := by
  show Option.elim (pendingMin l) (if u.status = Status.pending then some u else none)
      (fun v => if u.status = Status.pending then
        if u.created_at ≤ v.created_at then some u else some v else some v) = pendingMin l
  cases pendingMin l with
  | none => simp only [Option.elim]; rw [if_neg hu]
  | some v => simp only [Option.elim]; rw [if_neg hu]

theorem pendingMin_append (pre ts : Store)
    (hpre : ∀ u ∈ pre, u.status ≠ Status.pending) :
    pendingMin (pre ++ ts) = pendingMin ts := by
  induction pre with
  | nil => rfl
  | cons u us ih =>
    have hu : u.status ≠ Status.pending := hpre u (List.mem_cons_self _ _)
    have ih2 := ih (fun v hv => hpre v (List.mem_cons_of_mem _ hv))
    show pendingMin (u :: (us ++ ts)) = pendingMin ts
    rw [pendingMin_cons_not_pending u _ hu, ih2]

theorem pendingMin_cons_min (t : Task) (ts : Store)
    (hp : t.status = Status.pending)
    (hmin : ∀ u ∈ ts, u.status = Status.pending → t.created_at ≤ u.created_at) :
    pendingMin (t :: ts) = some t := by
  unfold pendingMin
  cases hrec : pendingMin ts with
  | none => simp only [Option.elim]; rw [if_pos hp]
  | some v =>
    obtain ⟨hvmem, hvp⟩ := pendingMin_mem hrec
    simp only [Option.elim]
    rw [if_pos hp, if_pos (hmin v hvmem hvp)]

theorem countPending_pending_unique {s : Store} (h : countPending s = 1)
    {t u : Task} (ht : t ∈ s) (htp : t.status = Status.pending)
    (hu : u ∈ s) (hup : u.status = Status.pending) : t = u := by
  have htf : t ∈ List.filter (fun x => x.status == Status.pending) s :=
    List.mem_filter.mpr ⟨ht, by simp [htp]⟩
  have huf : u ∈ List.filter (fun x => x.status == Status.pending) s :=
    List.mem_filter.mpr ⟨hu, by simp [hup]⟩
  obtain ⟨a, ha⟩ := List.length_eq_one.mp h
  rw [ha] at htf huf
  simp only [List.mem_singleton] at htf huf
  rw [htf, huf]

theorem exists_pending_of_countPending_pos {s : Store} (h : 0 < countPending s) :
    ∃ t ∈ s, t.status = Status.pending := by
  have : List.filter (fun x => x.status == Status.pending) s ≠ [] := by
    intro hnil
    rw [countPending, hnil] at h
    simp at h
  obtain ⟨a, ha⟩ := List.exists_mem_of_ne_nil _ this
  have := List.mem_filter.mp ha
  exact ⟨a, this.1, by simpa using this.2⟩

/-! ### C1: atomic, mutually exclusive, non-blocking claim -/

theorem no_pending_after_claim {s : Store} {t : Task} (h : countPending s = 1)
    (htmem : t ∈ s) (htp : t.status = Status.pending) (now : Int) :
    ∀ u ∈ updateById s t.id (markRunning now), u.status ≠ Status.pending := by
  intro u hu
  obtain ⟨v, hv, hvu⟩ := List.mem_map.mp hu
  by_cases hid : (v.id == t.id) = true
  · rw [if_pos hid] at hvu
    rw [← hvu]
    simp [markRunning]
  · rw [if_neg hid] at hvu
    rw [← hvu]
    intro hvp
    have hvt : v = t := countPending_pending_unique h hv hvp htmem htp
    rw [hvt] at hid
    simp at hid

/-- C1: the claim statement is one atomic operation: on a store with exactly
one pending task it selects that task, transitions it to running stamping
started_at, heartbeat_at and updated_at, and returns its row; after it, a
second (serialized-concurrent) claim attempt observes no eligible row and
returns none — so of two concurrent claim attempts at most one succeeds,
and neither blocks (both return). -/
theorem claim_next_exclusive (s : Store) (now now2 : Int)
    (h : countPending s = 1) :
    ∃ t ∈ s, t.status = Status.pending ∧
      claimNext s now =
        (some (returningCols (markRunning now t)), updateById s t.id (markRunning now)) ∧
      (markRunning now t).status = Status.running ∧
      (markRunning now t).started_at = some now ∧
      (markRunning now t).heartbeat_at = some now ∧
      (markRunning now t).updated_at = now ∧
      countPending (updateById s t.id (markRunning now)) = 0 ∧
      (claimNext (updateById s t.id (markRunning now)) now2).1 = none := by
  obtain ⟨t0, ht0, hp0⟩ := exists_pending_of_countPending_pos (h ▸ Nat.one_pos)
  cases hm : pendingMin s with
  | none => exact absurd hp0 ((pendingMin_eq_none_iff s).mp hm t0 ht0)
  | some t =>
    obtain ⟨htmem, htp⟩ := pendingMin_mem hm
    have hall := no_pending_after_claim h htmem htp now
    refine ⟨t, htmem, htp, ?_, rfl, rfl, rfl, rfl, ?_, ?_⟩
    · unfold claimNext
      rw [hm]
      rfl
    · unfold countPending
      rw [List.length_eq_zero, List.filter_eq_nil_iff]
      intro u hu
      simpa using hall u hu
    · have hnone : pendingMin (updateById s t.id (markRunning now)) = none :=
        (pendingMin_eq_none_iff _).mpr hall
      unfold claimNext
      rw [hnone]
      rfl

/-- Witness for C1 on a concrete two-row store with one pending task. -/
theorem claim_next_exclusive_witness :
    countPending exStoreOnePending = 1 ∧
    (∃ t ∈ exStoreOnePending, t.status = Status.pending ∧
      claimNext exStoreOnePending 100 =
        (some (returningCols (markRunning 100 t)),
          updateById exStoreOnePending t.id (markRunning 100)) ∧
      (markRunning 100 t).status = Status.running ∧
      (markRunning 100 t).started_at = some 100 ∧
      (markRunning 100 t).heartbeat_at = some 100 ∧
      (markRunning 100 t).updated_at = 100 ∧
      countPending (updateById exStoreOnePending t.id (markRunning 100)) = 0 ∧
      (claimNext (updateById exStoreOnePending t.id (markRunning 100)) 200).1 = none) :=
  ⟨by decide, claim_next_exclusive exStoreOnePending 100 200 (by decide)⟩

/-! ### C2: status transitions and (non-)guarding of terminal statuses -/

/-- C2 counterexample: the completion write issued after a handler returns
is matched on id only, so on a task that is already terminal (status
failed) it is not a no-op: it overwrites the terminal status with
completed. -/
theorem complete_overwrites_terminal :
    exFailedTask.status = Status.failed ∧
    (findById (completeTask exStoreFailed 1 (jsonDumps (Json.obj [])) 50) 1).map Task.status
      = some Status.completed ∧
    Status.completed ≠ Status.failed :=
  ⟨rfl, rfl, by decide⟩

/-- C2 amended: the claim transitions only pending tasks to running, but the
completion and failure writes are unconditional updates matched on id alone
(no status guard): they set the new status, stamps and payload whatever the
task's current status is, terminal included. -/
theorem engine_writes_unguarded (s : Store) (tid : Nat) (out err : String)
    (now : Int) (t0 : Task) (h : findById s tid = some t0) :
    findById (completeTask s tid out now) tid =
      some { t0 with status := Status.completed, output := some out,
                     completed_at := some now, updated_at := now } ∧
    findById (failTask s tid err now) tid =
      some { t0 with status := Status.failed, error := some err,
                     completed_at := some now, updated_at := now } ∧
    ∀ (now2 : Int) (r : ClaimedRow) (s1 : Store),
      claimNext s now2 = (some r, s1) →
      ∃ t ∈ s, t.status = Status.pending ∧ r = returningCols (markRunning now2 t) ∧
        s1 = updateById s t.id (markRunning now2) := by
  refine ⟨?_, ?_, ?_⟩
  · rw [completeTask, findById_updateById s tid (completeRow out now) (fun t => rfl), h]
    rfl
  · rw [failTask, findById_updateById s tid (failRow err now) (fun t => rfl), h]
    rfl
  · intro now2 r s1 hc
    cases hm : pendingMin s with
    | none =>
      unfold claimNext at hc
      rw [hm] at hc
      simp only [Option.elim, Prod.mk.injEq] at hc
      cases hc.1
    | some t =>
      unfold claimNext at hc
      rw [hm] at hc
      simp only [Option.elim, Prod.mk.injEq, Option.some.injEq] at hc
      obtain ⟨htm, htp⟩ := pendingMin_mem hm
      exact ⟨t, htm, htp, hc.1.symm, hc.2.symm⟩

/-- Witness for the amended C2 theorem on a concrete store. -/
theorem engine_writes_unguarded_witness :
    findById exStoreFailed 1 = some exFailedTask ∧
    (findById (completeTask exStoreFailed 1 "out" 50) 1 =
      some { exFailedTask with status := Status.completed, output := some "out",
                               completed_at := some 50, updated_at := 50 } ∧
    findById (failTask exStoreFailed 1 "boom" 50) 1 =
      some { exFailedTask with status := Status.failed, error := some "boom",
                               completed_at := some 50, updated_at := 50 } ∧
    ∀ (now2 : Int) (r : ClaimedRow) (s1 : Store),
      claimNext exStoreFailed now2 = (some r, s1) →
      ∃ t ∈ exStoreFailed, t.status = Status.pending ∧
        r = returningCols (markRunning now2 t) ∧
        s1 = updateById exStoreFailed t.id (markRunning now2)) :=
  ⟨rfl, engine_writes_unguarded exStoreFailed 1 "out" "boom" 50 exFailedTask rfl⟩

/-! ### C8: FIFO claiming order -/

theorem drain_fifo_aux : ∀ (ts pre : Store) (now : Int),
    (∀ u ∈ pre, u.status ≠ Status.pending) →
    (∀ u ∈ ts, u.status = Status.pending) →
    List.Pairwise (fun a b => a.created_at < b.created_at) ts →
    (List.map Task.id (pre ++ ts)).Nodup →
    drainClaims ts.length (pre ++ ts) now =
      List.map (fun t => returningCols (markRunning now t)) ts := by
  intro ts
  induction ts with
  | nil => intro pre now _ _ _ _; rfl
  | cons t ts ih =>
    intro pre now hpre hts hsort hids
    have htp : t.status = Status.pending := hts t (List.mem_cons_self _ _)
    have hsort2 := List.pairwise_cons.mp hsort
    -- id disjointness facts
    have hids2 : (List.map Task.id pre).Nodup ∧ (t.id :: List.map Task.id ts).Nodup ∧
        List.Disjoint (List.map Task.id pre) (t.id :: List.map Task.id ts) := by
      rw [List.map_append, List.map_cons] at hids
      exact List.nodup_append.mp hids
    have hpre_ne : ∀ u ∈ pre, u.id ≠ t.id := by
      intro u hu he
      exact hids2.2.2 (List.mem_map_of_mem Task.id hu) (he ▸ List.mem_cons_self _ _)
    have hts_ne : ∀ u ∈ ts, u.id ≠ t.id := by
      intro u hu he
      exact (List.nodup_cons.mp hids2.2.1).1 (he ▸ List.mem_map_of_mem Task.id hu)
    -- the claim picks t
    have hmin : pendingMin (pre ++ t :: ts) = some t := by
      rw [pendingMin_append pre _ hpre]
      exact pendingMin_cons_min t ts htp (fun u hu _ => le_of_lt (hsort2.1 u hu))
    have hupd : updateById (pre ++ t :: ts) t.id (markRunning now) =
        pre ++ markRunning now t :: ts := by
      rw [updateById_append]
      rw [updateById_eq_self pre t.id _ hpre_ne]
      congr 1
      show (if t.id == t.id then markRunning now t else t) :: updateById ts t.id (markRunning now)
        = markRunning now t :: ts
      rw [if_pos (by simp), updateById_eq_self ts t.id _ hts_ne]
    have hclaim : claimNext (pre ++ t :: ts) now =
        (some (returningCols (markRunning now t)), pre ++ markRunning now t :: ts) := by
      unfold claimNext
      rw [hmin]
      simp only [Option.elim]
      rw [hupd]
    -- one drain step
    show drainClaims (ts.length + 1) (pre ++ t :: ts) now = _
    rw [drainClaims, hclaim]
    simp only [Option.elim, List.map_cons]
    congr 1
    have hre : pre ++ markRunning now t :: ts = (pre ++ [markRunning now t]) ++ ts := by
      simp
    rw [hre]
    refine ih (pre ++ [markRunning now t]) now ?_ ?_ hsort2.2 ?_
    · intro u hu
      rcases List.mem_append.mp hu with hl | hr
      · exact hpre u hl
      · rw [List.mem_singleton.mp hr]
        simp [markRunning]
    · exact fun u hu => hts u (List.mem_cons_of_mem _ hu)
    · have : List.map Task.id ((pre ++ [markRunning now t]) ++ ts) =
          List.map Task.id (pre ++ t :: ts) := by
        simp [markRunning]
      rw [this]
      exact hids

/-- C8 (amended): with all tasks pending, strictly increasing `created_at`
and distinct ids, a single claimer's successive claim_next calls return the
tasks in exactly the insertion order. -/
theorem claim_fifo (ts : Store) (now : Int)
    (hts : ∀ u ∈ ts, u.status = Status.pending)
    (hsort : List.Pairwise (fun a b => a.created_at < b.created_at) ts)
    (hids : (List.map Task.id ts).Nodup) :
    List.map ClaimedRow.id (drainClaims ts.length ts now) = List.map Task.id ts := by
  have h := drain_fifo_aux ts [] now (by intro u hu; cases hu) hts hsort (by simpa using hids)
  rw [show ([] : Store) ++ ts = ts from rfl] at h
  rw [h, List.map_map]
  rfl

/-- Witness for C8: three pending tasks with increasing `created_at` are
claimed in insertion order 1, 2, 3. -/
theorem claim_fifo_witness :
    (∀ u ∈ exStoreFifo, u.status = Status.pending) ∧
    List.Pairwise (fun a b => a.created_at < b.created_at) exStoreFifo ∧
    (List.map Task.id exStoreFifo).Nodup ∧
    List.map ClaimedRow.id (drainClaims exStoreFifo.length exStoreFifo 100) =
      List.map Task.id exStoreFifo :=
  ⟨by decide, by decide, by decide,
    claim_fifo exStoreFifo 100 (by decide) (by decide) (by decide)⟩

/-- C8 counterexample to the tie-break clause: on two pending tasks tied on
`created_at` (ids 2 and 1, the id-2 row physically first) the source's claim
query may return the id-2 row — it has no secondary sort key — while the
spec's "ties broken by id" selection returns the id-1 row. -/
theorem claim_tie_not_by_id :
    (claimNext exStoreTie 9).1.map ClaimedRow.id = some 2 ∧
    (pendingMinSpecOrder exStoreTie).map Task.id = some 1 ∧
    (2 : Nat) ≠ 1 :=
  ⟨by decide, by decide, by decide⟩

/-! ### C5: unknown workflow -/

/-- C5 counterexample: after one drain cycle on a store holding only a
pending task of workflow "unknown_flow" the task's error text is
"Unknown workflow: unknown_flow" — with a capital U, not equal to the
"unknown workflow: unknown_flow" the claim states. -/
theorem unknown_workflow_message_case :
    (findById (claim_and_run_one exStoreUnknown 7 (HandlerOutcome.returned none)).2.1 1).map
        Task.error = some (some "Unknown workflow: unknown_flow") ∧
    "Unknown workflow: unknown_flow" ≠ "unknown workflow: unknown_flow" :=
  ⟨by decide, by decide⟩

/-- C5 (amended): a claimed task whose workflow is not in the handler
registry is immediately failed with error "Unknown workflow: <name>",
completed_at and updated_at stamped, and — whatever the handler outcome `o`
would have been — no handler is invoked. -/
theorem unknown_workflow_fails (s : Store) (r : ClaimedRow) (now : Int)
    (o : HandlerOutcome) (t0 : Task)
    (hw : handlerNames.contains r.workflow = false)
    (h : findById s r.id = some t0) :
    dispatchClaimed s r now o =
      (failTask s r.id ("Unknown workflow: " ++ r.workflow) now, false) ∧
    findById (dispatchClaimed s r now o).1 r.id =
      some { t0 with status := Status.failed,
                     error := some ("Unknown workflow: " ++ r.workflow),
                     completed_at := some now, updated_at := now } := by
  have hd : dispatchClaimed s r now o =
      (failTask s r.id ("Unknown workflow: " ++ r.workflow) now, false) := by
    unfold dispatchClaimed
    rw [hw]
    rfl
  refine ⟨hd, ?_⟩
  rw [hd]
  show findById (failTask s r.id ("Unknown workflow: " ++ r.workflow) now) r.id = _
  rw [failTask,
    findById_updateById s r.id (failRow ("Unknown workflow: " ++ r.workflow) now) (fun t => rfl),
    h]
  rfl

/-- Witness for C5 on the concrete unknown-workflow store. -/
theorem unknown_workflow_fails_witness :
    handlerNames.contains exClaimedUnknown.workflow = false ∧
    findById exStoreUnknown exClaimedUnknown.id = some (mkTask 1 "unknown_flow" Status.pending 0) ∧
    (dispatchClaimed exStoreUnknown exClaimedUnknown 7 (HandlerOutcome.returned none) =
      (failTask exStoreUnknown exClaimedUnknown.id
        ("Unknown workflow: " ++ exClaimedUnknown.workflow) 7, false) ∧
    findById (dispatchClaimed exStoreUnknown exClaimedUnknown 7
        (HandlerOutcome.returned none)).1 exClaimedUnknown.id =
      some { mkTask 1 "unknown_flow" Status.pending 0 with
             status := Status.failed,
             error := some ("Unknown workflow: " ++ exClaimedUnknown.workflow),
             completed_at := some 7, updated_at := 7 }) :=
  ⟨by decide, rfl,
    unknown_workflow_fails exStoreUnknown exClaimedUnknown 7 (HandlerOutcome.returned none)
      (mkTask 1 "unknown_flow" Status.pending 0) (by decide) rfl⟩

/-! ### C6: handler failure capture, C10: falsy success results -/

/-- C6: a raised handler exception is caught and turned into a failed task
whose diagnostic is the exception type and message plus the traceback
truncated to at most 2000 characters; a returned result carrying a
non-empty error string likewise fails the task with that text; and in every
case the claim iteration returns normally (True exactly when a row was
claimed), so the drain loop continues to the next task. -/
theorem handler_failures_captured (s : Store) (tid : Nat) (now : Int) (t0 : Task)
    (h : findById s tid = some t0) :
    (∀ ename emsg tb : String,
      findById (processOutcome s tid now (HandlerOutcome.raised ename emsg tb)) tid =
        some { t0 with status := Status.failed,
                       error := some (ename ++ ": " ++ emsg ++ "\n" ++ strTake tb 2000),
                       completed_at := some now, updated_at := now } ∧
      (strTake tb 2000).length ≤ 2000) ∧
    (∀ (m : List (String × Json)) (e : String),
      m.lookup "error" = some (Json.str e) → e ≠ "" →
      findById (processOutcome s tid now (HandlerOutcome.returned (some m))) tid =
        some { t0 with status := Status.failed, error := some e,
                       completed_at := some now, updated_at := now }) ∧
    (∀ o : HandlerOutcome, (claim_and_run_one s now o).1 = (claimNext s now).1.isSome) := by
  refine ⟨?_, ?_, ?_⟩
  · intro ename emsg tb
    constructor
    · show findById
        (failTask s tid (ename ++ ": " ++ emsg ++ "\n" ++ strTake tb 2000) now) tid = _
      rw [failTask,
        findById_updateById s tid
          (failRow (ename ++ ": " ++ emsg ++ "\n" ++ strTake tb 2000) now) (fun t => rfl), h]
      rfl
    · show (String.mk (List.take 2000 tb.data)).data.length ≤ 2000
      rw [List.length_take]
      omega
  · intro m e hm he
    cases m with
    | nil => simp [List.lookup] at hm
    | cons p ms =>
      have hev : resultErrVal (some (p :: ms)) = some (Json.str e) := by
        simp only [resultErrVal, hm, jsonTruthy]
        simp [he]
      have hp : processOutcome s tid now (HandlerOutcome.returned (some (p :: ms))) =
          failTask s tid e now := by
        show Option.elim (resultErrVal (some (p :: ms))) _ _ = _
        rw [hev]
        rfl
      rw [hp, failTask, findById_updateById s tid (failRow e now) (fun t => rfl), h]
      rfl
  · intro o
    unfold claim_and_run_one
    cases hm : pendingMin s with
    | none =>
      unfold claimNext
      rw [hm]
      rfl
    | some t =>
      unfold claimNext
      rw [hm]
      rfl

/-- Witness for C6 on a concrete running task: a raised
`RuntimeError("boom")` and an explicit error-result both fail the task. -/
theorem handler_failures_captured_witness :
    findById exStoreDispatch 1 =
      some { mkTask 1 "summarize" Status.running 4 with
             started_at := some 4, heartbeat_at := some 4 } ∧
    ((findById (processOutcome exStoreDispatch 1 9
          (HandlerOutcome.raised "RuntimeError" "boom" "Traceback")) 1).map Task.error =
        some (some ("RuntimeError" ++ ": " ++ "boom" ++ "\n" ++ strTake "Traceback" 2000)) ∧
      (strTake "Traceback" 2000).length ≤ 2000 ∧
      (findById (processOutcome exStoreDispatch 1 9
          (HandlerOutcome.returned (some [("error", Json.str "llm quota")]))) 1).map Task.status =
        some Status.failed) := by
  have h := handler_failures_captured exStoreDispatch 1 9
    { mkTask 1 "summarize" Status.running 4 with
      started_at := some 4, heartbeat_at := some 4 } rfl
  refine ⟨rfl, ?_, (h.1 "RuntimeError" "boom" "Traceback").2, ?_⟩
  · rw [(h.1 "RuntimeError" "boom" "Traceback").1]
    rfl
  · rw [h.2.1 [("error", Json.str "llm quota")] "llm quota" rfl (by decide)]
    rfl

/-- C10: a handler returning a falsy result (`None` or the empty dict) with
no error is recorded as completed with output exactly the empty JSON object
text, never a missing output. -/
theorem falsy_result_completed (s : Store) (tid : Nat) (now : Int) (t0 : Task)
    (h : findById s tid = some t0) :
    findById (processOutcome s tid now (HandlerOutcome.returned none)) tid =
      some { t0 with status := Status.completed,
                     output := some (jsonDumps (Json.obj [])),
                     completed_at := some now, updated_at := now } ∧
    findById (processOutcome s tid now (HandlerOutcome.returned (some []))) tid =
      some { t0 with status := Status.completed,
                     output := some (jsonDumps (Json.obj [])),
                     completed_at := some now, updated_at := now } ∧
    jsonDumps (Json.obj []) = "\x7b\x7d" := by
  refine ⟨?_, ?_, rfl⟩
  · show findById (completeTask s tid (jsonDumps (Json.obj [])) now) tid = _
    rw [completeTask,
      findById_updateById s tid (completeRow (jsonDumps (Json.obj [])) now) (fun t => rfl), h]
    rfl
  · show findById (completeTask s tid (jsonDumps (Json.obj [])) now) tid = _
    rw [completeTask,
      findById_updateById s tid (completeRow (jsonDumps (Json.obj [])) now) (fun t => rfl), h]
    rfl

/-- Witness for C10 on a concrete running task. -/
theorem falsy_result_completed_witness :
    findById exStoreDispatch 1 =
      some { mkTask 1 "summarize" Status.running 4 with
             started_at := some 4, heartbeat_at := some 4 } ∧
    ((findById (processOutcome exStoreDispatch 1 9 (HandlerOutcome.returned none)) 1).map
        (fun t => (t.status, t.output)) = some (Status.completed, some "\x7b\x7d") ∧
      (findById (processOutcome exStoreDispatch 1 9 (HandlerOutcome.returned (some []))) 1).map
        (fun t => (t.status, t.output)) = some (Status.completed, some "\x7b\x7d")) := by
  have h := falsy_result_completed exStoreDispatch 1 9
    { mkTask 1 "summarize" Status.running 4 with
      started_at := some 4, heartbeat_at := some 4 } rfl
  refine ⟨rfl, ?_, ?_⟩
  · rw [h.1]
    rfl
  · rw [h.2.1]
    rfl

/-! ### C3: stale reclaim -/

/-- C3: evaluation of the source's stale-task sweep at its intended input
(one running task whose heartbeat is more than 10 minutes old).  The
statement's RETURNING list is the aggregate `count(*)`, which PostgreSQL
rejects, so the UPDATE raises, the `except` arm swallows the error, the
store is unchanged — the task stays running with no error written — and
nothing resembling a count is produced.  With the aggregate removed the
same statement would have reclaimed exactly this task, writing the message
"Worker timeout: task exceeded heartbeat deadline", which moreover differs
from the message the claim quotes. -/
theorem reclaim_stale_returning_bug :
    staleCond 1000 exRunTask = true ∧
    execUpdate reclaimStmt exStoreRun 1000 =
      Except.error "aggregate functions are not allowed in RETURNING" ∧
    reclaim_stale_tasks exStoreRun 1000 = exStoreRun ∧
    (findById (reclaim_stale_tasks exStoreRun 1000) 1).map Task.status =
      some Status.running ∧
    (findById (reclaim_stale_tasks exStoreRun 1000) 1).map Task.error = some none ∧
    execUpdate { reclaimStmt with returningAgg := false } exStoreRun 1000 =
      Except.ok (1, [staleAssign 1000 exRunTask]) ∧
    (staleAssign 1000 exRunTask).status = Status.failed ∧
    (staleAssign 1000 exRunTask).error =
      some "Worker timeout: task exceeded heartbeat deadline" ∧
    "Worker timeout: task exceeded heartbeat deadline" ≠
      "worker timeout: heartbeat deadline exceeded" :=
  ⟨by decide, rfl, rfl, rfl, rfl, rfl, rfl, rfl, by decide⟩

/-! ### C4: credential owner scoping -/

/-- C4 counterexample: `get_credential_decrypted` selects by credential id
alone — it takes no owner identity and its statement has no owner_id
condition — so it returns, decrypted, a credential whose owner is user 2 to
any caller, in particular one acting for the distinct user 1. -/
theorem get_decrypted_ignores_owner :
    (get_credential_decrypted "KEYA" exCreds 10).toOption.map
        (fun r => (r.owner_id, r.config)) =
      some (2, Json.obj [("token", Json.str "s3cret")]) ∧
    (2 : Nat) ≠ 1 :=
  ⟨rfl, by decide⟩

/-- C4 (amended): `create`, `update`, `list` and `delete` scope every read
and write by the caller-supplied owner: an operation invoked for owner `a`
never returns, modifies, deletes or creates a row of a distinct owner `b`.
(`get_credential_decrypted` is the exception: it is keyed by id only.) -/
theorem credential_owner_scoping (key : String) (s : CredStore) (cid : Nat)
    (a b : Nat) (hab : a ≠ b) (n? s? : Option String)
    (c? : Option (List (String × Json))) (i? : Option Bool) (newId : Nat)
    (nm sv ty : String) (cfg : List (String × Json)) (now : Int) :
    (∀ c ∈ s, c.owner_id = b → c ∈ update_credential key s cid a n? s? c? i?) ∧
    (∀ c ∈ s, c.owner_id = b → c ∈ (delete_credential s cid a).2) ∧
    (∀ c ∈ list_credentials s a, c.owner_id = a) ∧
    (create_credential key s newId a nm sv ty cfg now).1.owner_id = a ∧
    (∀ c ∈ (create_credential key s newId a nm sv ty cfg now).2,
      c ∈ s ∨ c.owner_id = a) := by
  have hba : ∀ c : Credential, c.owner_id = b → (c.owner_id == a) = false := by
    intro c hc
    rw [hc]
    exact beq_eq_false_iff_ne.mpr (Ne.symm hab)
  refine ⟨?_, ?_, ?_, rfl, ?_⟩
  · intro c hc hcb
    unfold update_credential
    by_cases hall : (n?.isNone && s?.isNone && c?.isNone && i?.isNone) = true
    · rw [if_pos hall]
      exact hc
    · rw [if_neg hall]
      refine List.mem_map.mpr ⟨c, hc, ?_⟩
      simp [hba c hcb]
  · intro c hc hcb
    refine List.mem_filter.mpr ⟨hc, ?_⟩
    simp [hba c hcb]
  · intro c hc
    have := List.mem_filter.mp hc
    simpa using this.2
  · intro c hc
    rcases List.mem_append.mp hc with h1 | h2
    · exact Or.inl h1
    · rw [List.mem_singleton.mp h2]
      exact Or.inr rfl

/-- Witness for the amended C4 theorem with owners 1 and 2 on the concrete
credential store. -/
theorem credential_owner_scoping_witness :
    (1 : Nat) ≠ 2 ∧
    ((∀ c ∈ exCreds, c.owner_id = 2 →
        c ∈ update_credential "KEYA" exCreds 10 1 (some "nm") none none none) ∧
    (∀ c ∈ exCreds, c.owner_id = 2 → c ∈ (delete_credential exCreds 10 1).2) ∧
    (∀ c ∈ list_credentials exCreds 1, c.owner_id = 1) ∧
    (create_credential "KEYA" exCreds 11 1 "n" "svc" "api_key" [] 5).1.owner_id = 1 ∧
    (∀ c ∈ (create_credential "KEYA" exCreds 11 1 "n" "svc" "api_key" [] 5).2,
      c ∈ exCreds ∨ c.owner_id = 1)) :=
  ⟨by decide,
    credential_owner_scoping "KEYA" exCreds 10 1 2 (by decide) (some "nm") none none none
      11 "n" "svc" "api_key" [] 5⟩

/-! ### C7: vault encrypt/decrypt roundtrip -/

/-- C7: decrypting a credential config under the key that encrypted it
yields the original map; decrypting under any other key raises the
distinguishable `ValueError` ("Decryption failed. Check ROKA_VAULT_KEY."),
never an empty or partial map. -/
theorem vault_roundtrip (key key2 : String) (data : List (String × Json))
    (hk : key2 ≠ key) :
    decrypt key (encrypt key data) = Except.ok (Json.obj data) ∧
    decrypt key2 (encrypt key data) =
      Except.error "Decryption failed. Check ROKA_VAULT_KEY." := by
  constructor
  · have h1 : fernetDecrypt key (encrypt key data) = some (Json.obj data) := by
      unfold fernetDecrypt encrypt fernetEncrypt
      simp
    unfold decrypt
    rw [h1]
    rfl
  · have h2 : fernetDecrypt key2 (encrypt key data) = none := by
      unfold fernetDecrypt encrypt fernetEncrypt
      exact if_neg (fun h => hk h.symm)
    unfold decrypt
    rw [h2]
    rfl

/-- Witness for C7 with the concrete keys "KEYA", "KEYB" and a one-entry
config map. -/
theorem vault_roundtrip_witness :
    ("KEYB" : String) ≠ "KEYA" ∧
    (decrypt "KEYA" (encrypt "KEYA" [("token", Json.str "s3cret")]) =
      Except.ok (Json.obj [("token", Json.str "s3cret")]) ∧
    decrypt "KEYB" (encrypt "KEYA" [("token", Json.str "s3cret")]) =
      Except.error "Decryption failed. Check ROKA_VAULT_KEY.") :=
  ⟨by decide, vault_roundtrip "KEYA" "KEYB" [("token", Json.str "s3cret")] (by decide)⟩

/-! ### C9: change-bridge backoff -/

theorem bridgeIter_fst (b : Nat) (o : Bool) :
    (bridgeIter b o).1 = if o then BRIDGE_RECONNECT_BASE else b := by
  cases o <;> rfl

theorem bridgeIter_snd (b : Nat) (o : Bool) :
    (bridgeIter b o).2 = min ((if o then BRIDGE_RECONNECT_BASE else b) * 2) 60 := by
  cases o <;> rfl

theorem bridgeDelays_le (os : List Bool) : ∀ b, b ≤ 60 →
    ∀ d ∈ bridgeDelays b os, d ≤ 60 := by
  induction os with
  | nil => intro b _ d hd; cases hd
  | cons o os ih =>
    intro b hb d hd
    rw [show bridgeDelays b (o :: os) =
        (bridgeIter b o).1 :: bridgeDelays (bridgeIter b o).2 os from rfl] at hd
    rcases List.mem_cons.mp hd with rfl | hmem
    · rw [bridgeIter_fst]
      cases o
      · simpa using hb
      · simp [BRIDGE_RECONNECT_BASE]
    · refine ih (bridgeIter b o).2 ?_ d hmem
      rw [bridgeIter_snd]
      exact min_le_right _ _

theorem bridgeDelays_fail_closed : ∀ (n b : Nat), b ≤ 60 → ∀ k, k < n →
    (bridgeDelays b (List.replicate n false)).get? k = some (min (b * 2 ^ k) 60) := by
  intro n
  induction n with
  | zero => intro b _ k hk; exact absurd hk (Nat.not_lt_zero k)
  | succ n ih =>
    intro b hb k hk
    rw [List.replicate_succ]
    rw [show bridgeDelays b (false :: List.replicate n false) =
        b :: bridgeDelays (min (b * 2) 60) (List.replicate n false) from rfl]
    cases k with
    | zero =>
      simp only [List.get?]
      rw [pow_zero, mul_one, Nat.min_eq_left hb]
    | succ k =>
      simp only [List.get?]
      rw [ih (min (b * 2) 60) (min_le_right _ _) k (by omega)]
      congr 1
      have hpow : (1 : Nat) ≤ 2 ^ k := Nat.one_le_two_pow
      rcases le_or_lt (b * 2) 60 with hc | hc
      · rw [Nat.min_eq_left hc, pow_succ]
        ring_nf
      · rw [Nat.min_eq_right (le_of_lt hc)]
        have h1 : 60 ≤ 60 * 2 ^ k := Nat.le_mul_of_pos_right 60 (by omega)
        have h2 : 60 ≤ b * 2 ^ (k + 1) := by
          have : b * 2 * 2 ^ k = b * 2 ^ (k + 1) := by
            rw [pow_succ]; ring
          calc 60 ≤ (b * 2) * 1 := by omega
            _ ≤ (b * 2) * 2 ^ k := Nat.mul_le_mul_left _ hpow
            _ = b * 2 ^ (k + 1) := this
        rw [Nat.min_eq_right h1, Nat.min_eq_right h2]

/-- C9: the bridge's reconnect delay starts at `BRIDGE_RECONNECT_BASE` (1s);
across consecutive subscription failures the k-th delay is min(2^k, 60) —
doubling, capped at 60s; no delay ever exceeds 60s; an iteration whose
subscription succeeded resets the delay to 1s; and with no API key
configured the bridge performs no subscription attempt and no sleep at
all. -/
theorem bridge_backoff_contract :
    (∀ os, centrifugoBridgeDelays "" os = [] ∧
      centrifugoBridgeSubscribeCount "" os = 0) ∧
    (∀ (apiKey : String) (os : List Bool) (o : Bool), apiKey ≠ "" →
      (centrifugoBridgeDelays apiKey (o :: os)).head? = some BRIDGE_RECONNECT_BASE) ∧
    (∀ n k, k < n →
      (bridgeDelays BRIDGE_RECONNECT_BASE (List.replicate n false)).get? k =
        some (min (2 ^ k) 60)) ∧
    (∀ (apiKey : String) (os : List Bool) (d : Nat),
      d ∈ centrifugoBridgeDelays apiKey os → d ≤ 60) ∧
    (∀ (b : Nat) (os : List Bool), bridgeDelays b (true :: os) =
      BRIDGE_RECONNECT_BASE :: bridgeDelays 2 os) := by
  refine ⟨?_, ?_, ?_, ?_, ?_⟩
  · intro os
    exact ⟨by simp [centrifugoBridgeDelays], by simp [centrifugoBridgeSubscribeCount]⟩
  · intro apiKey os o hk
    unfold centrifugoBridgeDelays
    rw [if_neg hk]
    cases o <;> rfl
  · intro n k hk
    have h := bridgeDelays_fail_closed n 1 (by omega) k hk
    simpa using h
  · intro apiKey os d hd
    unfold centrifugoBridgeDelays at hd
    by_cases hk : apiKey = ""
    · rw [if_pos hk] at hd
      cases hd
    · rw [if_neg hk] at hd
      exact bridgeDelays_le os BRIDGE_RECONNECT_BASE (by decide) d hd
  · intro b os
    rfl

/-- Witness for C9: concrete instances of each quantified clause. -/
theorem bridge_backoff_contract_witness :
    (centrifugoBridgeDelays "" [false, false] = [] ∧
      centrifugoBridgeSubscribeCount "" [false, false] = 0) ∧
    (centrifugoBridgeDelays "key1" [false]).head? = some BRIDGE_RECONNECT_BASE ∧
    (bridgeDelays BRIDGE_RECONNECT_BASE (List.replicate 8 false)).get? 7 =
      some (min (2 ^ 7) 60) ∧
    (1 ∈ centrifugoBridgeDelays "key1" [false] → 1 ≤ 60) ∧
    bridgeDelays 5 (true :: [false]) = BRIDGE_RECONNECT_BASE :: bridgeDelays 2 [false] :=
  ⟨bridge_backoff_contract.1 [false, false],
    bridge_backoff_contract.2.1 "key1" [] false (by decide),
    bridge_backoff_contract.2.2.1 8 7 (by decide),
    fun h => bridge_backoff_contract.2.2.2.1 "key1" [false] 1 h,
    bridge_backoff_contract.2.2.2.2 5 [false]⟩

end Roka
